import Mathlib

set_option maxHeartbeats 1000000

/-
Verification development for the AlpenBlumen data-enrichment scripts
(scripts/flower_wiki.py, scripts/generate_alpen_blumen_data.py,
scripts/flower_image.py, scripts/hartinger_images.py).

The Python functions are shallowly embedded as executable Lean
definitions.  Remote HTTP endpoints are modelled as explicit "world"
records of response functions; a call that can raise
requests.RequestException is modelled with Except ReqError.
-/

namespace AlpenBlumen

instance {ε α : Type} [DecidableEq ε] [DecidableEq α] : DecidableEq (Except ε α) :=
  fun x y =>
    match x, y with
    | Except.ok a, Except.ok b =>
      if h : a = b then isTrue (by rw [h]) else isFalse (by simp [h])
    | Except.error a, Except.error b =>
      if h : a = b then isTrue (by rw [h]) else isFalse (by simp [h])
    | Except.ok _, Except.error _ => isFalse (by simp)
    | Except.error _, Except.ok _ => isFalse (by simp)

/-- Python whitespace test (str.strip, regex backslash-s), restricted to the
ASCII whitespace characters. -/
def py_isspace (c : Char) : Bool :=
  c == ' ' || c == '\t' || c == '\n' || c == '\r' || c == '\x0b' || c == '\x0c'

/-- Python str.strip on a character list: drop leading and trailing
whitespace. -/
def py_strip_chars (l : List Char) : List Char :=
  ((l.dropWhile py_isspace).reverse.dropWhile py_isspace).reverse

/-- Python str.strip on a string. -/
def py_strip (s : String) : String :=
  String.mk (py_strip_chars s.toList)

/-! ### Sentence splitting (first_sentences, flower_wiki.py lines 165-170) -/

/-- The uppercase letters accepted by the sentence-boundary lookahead
in the regex of first_sentences: ASCII A-Z plus the accented set. -/
def sentence_upper_chars : List Char :=
  "ABCDEFGHIJKLMNOPQRSTUVWXYZÄÖÜÀÂÉÈÊÎÔÙÇ".toList

/-- Membership in the boundary uppercase set. -/
def is_boundary_upper (c : Char) : Bool :=
  sentence_upper_chars.contains c

/-- The sentence-final punctuation of the regex lookbehind. -/
def is_sentence_punct (c : Char) : Bool :=
  c == '.' || c == '!' || c == '?'

/-- Whether a (reversed) accumulated sentence ends with sentence
punctuation. -/
def head_is_punct : List Char → Bool
  | [] => false
  | p :: _ => is_sentence_punct p

/-- State machine realising
re.split of (lookbehind punct)(whitespace run)(lookahead uppercase) as used
by first_sentences.  currRev is the current sentence reversed; pendRev is a
reversed buffer of whitespace seen after sentence punctuation, which turns
into a separator if the next character is an accepted uppercase letter and
is flushed back into the sentence otherwise. -/
def split_sentences_aux : List Char → List Char → List Char → List (List Char)
  | currRev, pendRev, [] => [(pendRev ++ currRev).reverse]
  | currRev, pendRev, c :: rest =>
    if py_isspace c then
      if !pendRev.isEmpty || head_is_punct currRev then
        split_sentences_aux currRev (c :: pendRev) rest
      else
        split_sentences_aux (c :: currRev) pendRev rest
    else
      if !pendRev.isEmpty && is_boundary_upper c then
        currRev.reverse :: split_sentences_aux [c] [] rest
      else
        split_sentences_aux (c :: (pendRev ++ currRev)) [] rest

/-- re.split of the boundary pattern over a character list. -/
def split_sentences (l : List Char) : List (List Char) :=
  split_sentences_aux [] [] l

/-- first_sentences(text, n) from flower_wiki.py (identical copy in
generate_alpen_blumen_data.py): empty text is returned as is; otherwise the
stripped text is split at the boundary heuristic, the first n sentences are
rejoined with single spaces and the result is stripped again.  The Python
default for n is 2; callers in the scripts use that default. -/
def first_sentences (text : String) (n : Nat) : String :=
  if text = "" then text
  else
    py_strip (String.mk
      (List.intercalate [' '] ((split_sentences (py_strip_chars text.toList)).take n)))

/-- The boundary heuristic finds no boundary in the text: splitting the
stripped text yields a single chunk. -/
def finds_no_boundary (text : String) : Prop :=
  (split_sentences (py_strip_chars text.toList)).length = 1

instance (text : String) : Decidable (finds_no_boundary text) := by
  unfold finds_no_boundary; infer_instance

/-! ### Tag stripping and attribution (fetch_attribution, flower_image.py
lines 127-146) -/

/-- The scanning loop of strip_tags inside fetch_attribution: a Boolean
inside-a-tag flag; each angle bracket toggles the flag and is dropped;
other characters are kept exactly when the flag is off. -/
def strip_tags_loop : Bool → List Char → List Char
  | _, [] => []
  | inside, c :: rest =>
    if c = '<' then strip_tags_loop true rest
    else if c = '>' then strip_tags_loop false rest
    else if inside then strip_tags_loop inside rest
    else c :: strip_tags_loop inside rest

/-- strip_tags from fetch_attribution: run the scanning loop with the flag
initially off, then strip surrounding whitespace. -/
def strip_tags (text : String) : String :=
  py_strip (String.mk (strip_tags_loop false text.toList))

/-- Skip through the next unescaped greater-than sign, consuming it;
if there is none, consume the rest of the input. -/
def skip_past_gt : List Char → List Char
  | [] => []
  | c :: rest => if c = '>' then rest else skip_past_gt rest

/-- Declarative restatement of the tag stripper, following the wording of
the claim: each less-than sign removes itself and everything up to and
including the next greater-than sign (or to the end of the input when
there is none); a stray greater-than sign is itself dropped and scanning
continues after it. -/
def drop_tag_spans : List Char → List Char
  | [] => []
  | c :: rest =>
    if c = '<' then drop_tag_spans (skip_past_gt rest)
    else if c = '>' then drop_tag_spans rest
    else c :: drop_tag_spans rest
termination_by l => l.length
decreasing_by
  all_goals simp only [List.length_cons]
  all_goals
    have hskip : ∀ m : List Char, (skip_past_gt m).length ≤ m.length := by
      intro m
      induction m with
      | nil => simp [skip_past_gt]
      | cons a t ih =>
        simp only [skip_past_gt]
        split
        · simp
        · exact Nat.le_trans ih (Nat.le_succ _)
  · exact Nat.lt_succ_of_le (hskip _)
  · omega
  · omega

/-- Extended metadata of a Commons image info record: the values of the
Artist, Credit and LicenseShortName fields (a missing field is modelled as
none; the Python access chain .get(key, dict()).get("value", "") turns it
into the empty string). -/
structure Extmetadata where
  artistValue : Option String
  creditValue : Option String
  licenseValue : Option String
deriving DecidableEq

/-- One imageinfo record: the download url and the optional extmetadata
object. -/
structure ImageInfo where
  url : Option String
  extmetadata : Option Extmetadata
deriving DecidableEq

/-- The raw artist, credit and license strings that fetch_attribution reads
out of the metadata, in the order in which its comprehension visits
them. -/
def attribution_fields (meta : ImageInfo) : List String :=
  let ext := meta.extmetadata.getD (Extmetadata.mk none none none)
  [ext.artistValue.getD "", ext.creditValue.getD "", ext.licenseValue.getD ""]

/-- fetch_attribution from flower_image.py: keep the fields whose raw value
is non-empty, strip markup from each kept field, and join with a pipe
separator. -/
def fetch_attribution (meta : ImageInfo) : String :=
  String.intercalate " | "
    (((attribution_fields meta).filter (fun v => v ≠ "")).map strip_tags)

/-- The behaviour the specification ascribes to fetch_attribution: keep the
fields whose STRIPPED text is non-empty.  Stated for comparison with the
source definition above. -/
def fetch_attribution_spec (meta : ImageInfo) : String :=
  String.intercalate " | "
    (((attribution_fields meta).map strip_tags).filter (fun v => v ≠ ""))

/-! ### Knowledge-graph model (flower_wiki.py / generate_alpen_blumen_data.py) -/

/-- A requests.RequestException, as the scripts can observe it: a network
failure, an HTTP error status raised by raise_for_status, or a JSON decode
failure of the response body. -/
inductive ReqError
  | network
  | httpStatus (code : Nat)
  | badJson
deriving DecidableEq

/-- Wikidata rank item id for species. -/
def RANK_SPECIES : String := "Q7432"

/-- Wikidata rank item id for subspecies. -/
def RANK_SUBSPECIES : String := "Q68947"

/-- Wikidata rank item id for genus. -/
def RANK_GENUS : String := "Q34740"

/-- Wikidata rank item id for family. -/
def RANK_FAMILY : String := "Q35409"

/-- Python rsplit on a slash with maxsplit one, last part: the substring
after the last slash, or the whole string when it has no slash. -/
def after_last_slash (s : String) : String :=
  String.mk ((s.toList.reverse.takeWhile (fun c => c ≠ '/')).reverse)

/-- One SPARQL result row of sparql_find_item_by_taxon_name: the item URI
and the optional rank URI (the rank variable is OPTIONAL in the query, so
the binding may be absent). -/
structure Binding where
  item : String
  rank : Option String
deriving DecidableEq

/-- rank_priority from sparql_find_item_by_taxon_name: a missing (or falsy,
i.e. empty) rank URI gets priority 10; the species rank 0; the subspecies
rank 1; every other rank 5. -/
def rank_priority (rank_uri : Option String) : Nat :=
  match rank_uri with
  | none => 10
  | some uri =>
    if uri = "" then 10
    else
      let qid := after_last_slash uri
      if qid = RANK_SPECIES then 0
      else if qid = RANK_SUBSPECIES then 1
      else 5

/-- Sort key of the Python results.sort call. -/
def binding_key (b : Binding) : Nat :=
  rank_priority b.rank

/-- Stable insertion of a later row into an already sorted list of earlier
rows: the new row goes after every row of smaller-or-equal key, so ties
keep the original result order, exactly as Python's stable list.sort. -/
def sort_insert (b : Binding) : List Binding → List Binding
  | [] => [b]
  | c :: cs =>
    if binding_key c ≤ binding_key b then c :: sort_insert b cs
    else b :: c :: cs

/-- Python's stable results.sort(key=rank_priority), modelled as a stable
insertion sort. -/
def py_stable_sort (l : List Binding) : List Binding :=
  l.foldl (fun acc b => sort_insert b acc) []

/-- Combine the best-so-far row of an earlier block with the best row of a
later block, preferring the earlier one on key ties. -/
def merge2 : Option Binding → Option Binding → Option Binding
  | none, m => m
  | some c, none => some c
  | some c, some b => if binding_key c ≤ binding_key b then some c else some b

/-- The first row of minimal rank priority, in original result order: the
selection rule stated by the specification, defined independently of the
sort for comparison. -/
def first_min_binding : List Binding → Option Binding
  | [] => none
  | b :: bs =>
    match first_min_binding bs with
    | none => some b
    | some c => if binding_key b ≤ binding_key c then some b else some c

/-- The pure core of sparql_find_item_by_taxon_name, applied to the decoded
result bindings: an empty result set yields none; otherwise the rows are
stably sorted by rank priority and the QID is the part of the first row's
item URI after the last slash. -/
def sparql_find_item (results : List Binding) : Option String :=
  match results with
  | [] => none
  | _ :: _ =>
    match (py_stable_sort results).head? with
    | some b => some (after_last_slash b.item)
    | none => none

/-! ### Wikidata entity documents and accessors -/

/-- A claim main value: a string literal, a reference to another entity
(a dict with an id field in the JSON), or something else. -/
inductive ClaimValue
  | str (s : String)
  | ref (id : String)
  | other
deriving DecidableEq

/-- A main snak: the optional datavalue. -/
structure Snak where
  datavalue : Option ClaimValue
deriving DecidableEq

/-- A Wikidata entity document as the scripts read it: claims (property to
list of main snaks), sitelinks (wiki key to page title) and labels
(language to label value). -/
structure Entity where
  claims : List (String × List Snak)
  sitelinks : List (String × String)
  labels : List (String × String)
deriving DecidableEq

/-- claim_value_id: the id of the first statement's main value for the
property, if that value is an entity reference. -/
def claim_value_id (entity : Entity) (prop : String) : Option String :=
  match entity.claims.lookup prop with
  | none => none
  | some [] => none
  | some (snak :: _) =>
    match snak.datavalue with
    | none => none
    | some (ClaimValue.ref id) => some id
    | some _ => none

/-- claim_string: the first statement's main value for the property, if
that value is a string literal. -/
def claim_string (entity : Entity) (prop : String) : Option String :=
  match entity.claims.lookup prop with
  | none => none
  | some [] => none
  | some (snak :: _) =>
    match snak.datavalue with
    | none => none
    | some (ClaimValue.str s) => some s
    | some _ => none

/-- get_rank_qid: taxon rank (P105). -/
def get_rank_qid (entity : Entity) : Option String :=
  claim_value_id entity "P105"

/-- get_parent_taxon_qid: parent taxon (P171). -/
def get_parent_taxon_qid (entity : Entity) : Option String :=
  claim_value_id entity "P171"

/-- get_taxon_name: Latin taxon name (P225). -/
def get_taxon_name (entity : Entity) : Option String :=
  claim_string entity "P225"

/-! ### Wikipedia summary endpoint (fetch_wikipedia_summary) -/

/-- The JSON body of a summary response: either it fails to decode, or it
decodes and the extract field is the given optional string (none models a
missing or null extract). -/
inductive JsonBody
  | malformed
  | extract (v : Option String)
deriving DecidableEq

/-- The outcome of the requests.get call inside fetch_wikipedia_summary:
either the request itself fails, or a response with a status code and a
body arrives. -/
inductive HttpResult
  | netFail
  | resp (status : Nat) (body : JsonBody)
deriving DecidableEq

/-- The try-block of fetch_wikipedia_summary, before the exception handler:
a 404 returns the empty summary, any other 4xx or 5xx status raises through
raise_for_status, a malformed body raises a JSON decode error, and a decoded
body yields its extract (empty when missing). -/
def fetch_summary_body : HttpResult → Except ReqError String
  | HttpResult.netFail => Except.error ReqError.network
  | HttpResult.resp status body =>
    if status = 404 then Except.ok ""
    else if 400 ≤ status ∧ status < 600 then Except.error (ReqError.httpStatus status)
    else
      match body with
      | JsonBody.malformed => Except.error ReqError.badJson
      | JsonBody.extract v => Except.ok (v.getD "")

/-- fetch_wikipedia_summary: the try-block wrapped in the
except-requests.RequestException handler, which converts every failure into
the empty summary (requests raises its own JSONDecodeError, a subclass of
RequestException, for malformed bodies). -/
def fetch_wikipedia_summary (r : HttpResult) : String :=
  match fetch_summary_body r with
  | Except.error _ => ""
  | Except.ok s => s

/-! ### The remote world and the taxon pipeline -/

/-- The remote services as the pipeline sees them: the SPARQL query result
for a Latin name, the entity document for a QID, and the summary endpoint
response for a title and language. -/
structure World where
  sparql : String → Except ReqError (List Binding)
  entity : String → Except ReqError Entity
  summary : String → String → HttpResult

/-- sparql_find_item_by_taxon_name over a world: network and HTTP errors of
the query propagate; a decoded result list goes through the pure selection
core. -/
def sparql_find_item_by_taxon_name (w : World) (latin : String) :
    Except ReqError (Option String) :=
  match w.sparql latin with
  | Except.error e => Except.error e
  | Except.ok results => Except.ok (sparql_find_item results)

/-- The loop of walk_up_to_rank with explicit remaining step count: fetch
the entity, return its taxon name when the rank matches, give up (not an
error) when the parent reference is missing or falsy, otherwise follow the
parent. -/
def walk_up_loop (w : World) (target : String) : Nat → String → Except ReqError (Option String)
  | 0, _ => Except.ok none
  | fuel + 1, qid =>
    match w.entity qid with
    | Except.error e => Except.error e
    | Except.ok ent =>
      if get_rank_qid ent = some target then Except.ok (get_taxon_name ent)
      else
        match get_parent_taxon_qid ent with
        | none => Except.ok none
        | some parent =>
          if parent = "" then Except.ok none
          else walk_up_loop w target fuel parent

/-- walk_up_to_rank with its default bound of 10 steps, as both scripts
call it. -/
def walk_up_to_rank (w : World) (start_qid target_rank_qid : String) :
    Except ReqError (Option String) :=
  walk_up_loop w target_rank_qid 10 start_qid

/-- One language's name and description in the output payload. -/
structure LangEntry where
  name : String
  description : String
deriving DecidableEq

/-- get_lang_name_and_summary: prefer the language's wiki sitelink title,
fall back to the label in that language (falsy label falls through to the
Latin name), fetch the summary for the chosen title and shorten it to two
sentences. -/
def get_lang_name_and_summary (w : World) (entity : Entity) (latin lang : String) :
    LangEntry :=
  let title :=
    match entity.sitelinks.lookup (lang ++ "wiki") with
    | some t => t
    | none =>
      match entity.labels.lookup lang with
      | some v => if v = "" then latin else v
      | none => latin
  LangEntry.mk title (first_sentences (fetch_wikipedia_summary (w.summary title lang)) 2)

/-- The assembled FlowerRecord payload. -/
structure Payload where
  english : LangEntry
  german : LangEntry
  french : LangEntry
  latin : String
  family : String
  genus : String
deriving DecidableEq

/-- How build_payload can fail: the die call (SystemExit) when no taxon is
found, or a propagated requests.RequestException. -/
inductive BuildErr
  | sysExit (msg : String)
  | reqErr (e : ReqError)
deriving DecidableEq

/-- The message die prints for a Latin name with no Wikidata item. -/
def no_taxon_msg (latin : String) : String :=
  "No Wikidata item found for taxon name " ++ latin ++ "."

/-- build_payload from generate_alpen_blumen_data.py (and flower_wiki.py):
resolve the QID (an empty result set dies with the no-taxon message), fetch
the winning entity once, walk up to genus and family, and assemble the
three language entries plus the Latin, family and genus strings. -/
def build_payload (w : World) (latin : String) : Except BuildErr Payload :=
  match sparql_find_item_by_taxon_name w latin with
  | Except.error e => Except.error (BuildErr.reqErr e)
  | Except.ok none => Except.error (BuildErr.sysExit (no_taxon_msg latin))
  | Except.ok (some qid) =>
    match w.entity qid with
    | Except.error e => Except.error (BuildErr.reqErr e)
    | Except.ok entity =>
      match walk_up_to_rank w qid RANK_GENUS with
      | Except.error e => Except.error (BuildErr.reqErr e)
      | Except.ok genus =>
        match walk_up_to_rank w qid RANK_FAMILY with
        | Except.error e => Except.error (BuildErr.reqErr e)
        | Except.ok family =>
          Except.ok (Payload.mk
            (get_lang_name_and_summary w entity latin "en")
            (get_lang_name_and_summary w entity latin "de")
            (get_lang_name_and_summary w entity latin "fr")
            latin
            (family.getD "")
            (genus.getD ""))

/-- The diagnostic line run_batch prints when a RequestException escapes
build_payload for a name. -/
def fetch_err_msg (latin : String) : String :=
  "Error fetching data for " ++ latin

/-- The per-name loop of run_batch: returns the successful payloads in
order, the failure tally, and the diagnostic lines in order (die prints its
message before raising SystemExit; the RequestException handler prints its
own line; both cases skip the name and continue). -/
def run_batch_loop (w : World) : List String → List Payload × Nat × List String
  | [] => ([], 0, [])
  | latin :: rest =>
    let r := run_batch_loop w rest
    match build_payload w latin with
    | Except.error (BuildErr.sysExit msg) => (r.1, r.2.1 + 1, ("Error: " ++ msg) :: r.2.2)
    | Except.error (BuildErr.reqErr _) => (r.1, r.2.1 + 1, fetch_err_msg latin :: r.2.2)
    | Except.ok p => (p :: r.1, r.2.1, r.2.2)

/-! ### Commons media resolution (flower_image.py) -/

/-- One page of a Commons titles query: the missing marker and the
imageinfo list. -/
structure Page where
  missing : Bool
  imageinfo : List ImageInfo
deriving DecidableEq

/-- The Commons API as resolve_image sees it: the pages answer for an exact
title query, and the full ranked hit list for a search phrase (each hit's
optional title; the srlimit request parameter truncates it to the first
10). -/
structure CommonsWorld where
  pages : String → Except ReqError (List Page)
  searchRanked : String → Except ReqError (List (Option String))

/-- normalize_title: replace spaces by underscores. -/
def normalize_title (title : String) : String :=
  String.mk (title.toList.map (fun c => if c = ' ' then '_' else c))

/-- DEFAULT_TEMPLATE.format(latin=x). -/
def default_template_format (latin : String) : String :=
  "Atlas der Alpenflora " ++ latin ++ ".jpg"

/-- build_candidate_titles: the template applied to the raw name and to the
underscore-normalized name, deduplicated (Python collects the two variants
in a set, whose iteration order is interpreter dependent; it is modelled
here as insertion order), each prefixed with the file namespace. -/
def build_candidate_titles (latin : String) : List String :=
  let v1 := default_template_format latin
  let v2 := default_template_format (normalize_title latin)
  let variants := if v2 = v1 then [v1] else [v1, v2]
  variants.map (fun v => "File:" ++ v)

/-- query_image_info: the first page of the response; a missing page or an
empty imageinfo list yields none, otherwise the first imageinfo record. -/
def query_image_info (w : CommonsWorld) (title : String) :
    Except ReqError (Option ImageInfo) :=
  match w.pages title with
  | Except.error e => Except.error e
  | Except.ok [] => Except.ok none
  | Except.ok (page :: _) =>
    if page.missing then Except.ok none
    else
      match page.imageinfo with
      | [] => Except.ok none
      | info :: _ => Except.ok (some info)

/-- The search phrase search_commons builds for a Latin name. -/
def search_query (latin : String) : String :=
  "intitle:\"Atlas der Alpenflora\" " ++ latin

/-- A search hit contributes its title exactly when the title key is
present and truthy (non-empty). -/
def hit_title : Option String → Option String
  | none => none
  | some t => if t = "" then none else some t

/-- search_commons: request the search scoped to the file namespace with
srlimit 10 (modelled as taking the first 10 ranked hits server side) and
yield the truthy titles in rank order. -/
def search_commons (w : CommonsWorld) (latin : String) :
    Except ReqError (List String) :=
  match w.searchRanked (search_query latin) with
  | Except.error e => Except.error e
  | Except.ok hits => Except.ok ((hits.take 10).filterMap hit_title)

/-- The shared loop shape of resolve_image: check titles in order and
return the first that resolves to image info. -/
def first_resolving (w : CommonsWorld) : List String → Except ReqError (Option ImageInfo)
  | [] => Except.ok none
  | t :: ts =>
    match query_image_info w t with
    | Except.error e => Except.error e
    | Except.ok (some info) => Except.ok (some info)
    | Except.ok none => first_resolving w ts

/-- resolve_image: try every exact candidate title first; only when none of
them resolves is the search generator consumed (the search request happens
lazily, on first iteration of the second loop), and its hits are checked in
rank order with the first resolvable hit winning. -/
def resolve_image (w : CommonsWorld) (latin : String) :
    Except ReqError (Option ImageInfo) :=
  match first_resolving w (build_candidate_titles latin) with
  | Except.error e => Except.error e
  | Except.ok (some info) => Except.ok (some info)
  | Except.ok none =>
    match search_commons w latin with
    | Except.error e => Except.error e
    | Except.ok titles => first_resolving w titles

/-! ### Hartinger plate name extraction (hartinger_images.py) -/

/-- Replace each occurrence of the HTML entity for a non-breaking space,
with or without its trailing semicolon (the regex ampersand-nbsp with an
optional semicolon), by a plain space. -/
def replace_nbsp : List Char → List Char
  | '&' :: 'n' :: 'b' :: 's' :: 'p' :: ';' :: rest => ' ' :: replace_nbsp rest
  | '&' :: 'n' :: 'b' :: 's' :: 'p' :: rest => ' ' :: replace_nbsp rest
  | c :: rest => c :: replace_nbsp rest
  | [] => []

/-- Collapse every whitespace run to a single space (the regex substitution
of one-or-more whitespace by a space); the flag records whether the
previous character was whitespace. -/
def collapse_ws_aux : Bool → List Char → List Char
  | _, [] => []
  | prev, c :: rest =>
    if py_isspace c then
      if prev then collapse_ws_aux true rest
      else ' ' :: collapse_ws_aux true rest
    else c :: collapse_ws_aux false rest

/-- Collapse whitespace runs to single spaces. -/
def collapse_ws (l : List Char) : List Char :=
  collapse_ws_aux false l

/-- clean_latin_name from hartinger_images.py: strip, reject the empty
result, replace non-breaking-space entities, collapse whitespace, and
reject a result with no words (whitespace only). -/
def clean_latin_name (name : String) : Option String :=
  let n1 := py_strip_chars name.toList
  if n1 = [] then none
  else
    let n2 := collapse_ws (replace_nbsp n1)
    if n2.any (fun c => !(py_isspace c)) then some (String.mk n2) else none

/-- Split a character list on a separator character (every occurrence). -/
def split_on_char (sep : Char) : List Char → List (List Char)
  | [] => [[]]
  | c :: rest =>
    if c = sep then [] :: split_on_char sep rest
    else
      match split_on_char sep rest with
      | [] => [[c]]
      | s :: ss => (c :: s) :: ss

/-- The part after the first colon (Python split on a colon with maxsplit
one, last part). -/
def after_first_colon (l : List Char) : List Char :=
  match l.span (fun c => c ≠ ':') with
  | (_, []) => l
  | (_, _ :: rest) => rest

/-- The part before the last dot (Python rsplit on a dot with maxsplit one,
first part); the whole list when there is no dot. -/
def before_last_dot (l : List Char) : List Char :=
  match l.reverse.span (fun c => c ≠ '.') with
  | (_, []) => l
  | (_, _ :: restRev) => restRev.reverse

/-- latin_from_title: take the basename after the namespace colon and
before the extension dot, split it on dashes, strip each part and keep the
non-empty ones, take the last part, replace underscores with spaces and
clean it. -/
def latin_from_title (title : String) : Option String :=
  let base := before_last_dot (after_first_colon title.toList)
  let parts := ((split_on_char '-' base).map py_strip_chars).filter (fun p => p ≠ [])
  match parts.getLast? with
  | none => none
  | some candidate =>
    clean_latin_name (String.mk (candidate.map (fun c => if c = '_' then ' ' else c)))

/-- The set-add of the title candidate into the metadata candidate set, as
gather_latin_names performs it: a truthy title candidate joins the set
(duplicates are not added twice). -/
def unify_candidates (latin_candidates : List String) (title_candidate : Option String) :
    List String :=
  match title_candidate with
  | none => latin_candidates
  | some t =>
    if t = "" then latin_candidates
    else if t ∈ latin_candidates then latin_candidates
    else latin_candidates ++ [t]

/-- The code point of a character, as Python compares characters. -/
def char_code (c : Char) : Nat :=
  c.toNat

/-- Python's lexicographic string comparison on character lists: compare
code points position by position; a proper prefix is smaller. -/
def py_lt_chars : List Char → List Char → Bool
  | [], [] => false
  | [], _ :: _ => true
  | _ :: _, [] => false
  | a :: as2, b :: bs2 =>
    if char_code a < char_code b then true
    else if char_code b < char_code a then false
    else py_lt_chars as2 bs2

/-- Python's strict string comparison. -/
def py_str_lt (s t : String) : Bool :=
  py_lt_chars s.toList t.toList

/-- The smaller of two strings under Python's comparison. -/
def py_min (s t : String) : String :=
  if py_str_lt t s then t else s

/-- sorted(cands)[0] on a non-empty collection: the least element under
Python's lexicographic string order; none for the empty collection (in
which case gather_latin_names leaves latin_name as None). -/
def sorted_head : List String → Option String
  | [] => none
  | c :: cs =>
    match sorted_head cs with
    | none => some c
    | some m => some (py_min c m)

/-- The latin-name selection step of gather_latin_names for one plate:
unify the pattern-derived candidates with the title-derived candidate and
pick the lexicographically smallest, if any. -/
def plate_latin_choice (latin_candidates : List String) (title_candidate : Option String) :
    Option String :=
  sorted_head (unify_candidates latin_candidates title_candidate)

/-- The selection step applied to a raw file title: the title-derived
candidate is computed by latin_from_title and participates in the same
tie-break as the metadata candidates. -/
def gather_entry_latin (metadata_candidates : List String) (title : String) :
    Option String :=
  plate_latin_choice metadata_candidates (latin_from_title title)

/-! ### Concrete worlds used to exercise the theorems -/

/-- A world whose SPARQL endpoint returns an empty result set for every
query and whose other endpoints fail. -/
def w_empty : World :=
  World.mk (fun _ => Except.ok []) (fun _ => Except.error ReqError.network)
    (fun _ _ => HttpResult.netFail)

/-- QIDs of a synthetic parent chain: the i-th node is a run of i letters. -/
def chain_qid (i : Nat) : String :=
  String.mk (List.replicate i 'x')

/-- The i-th node of the synthetic chain: an unhelpful rank and a parent
reference to the next node. -/
def chain_ent (i : Nat) : Entity :=
  Entity.mk
    [("P105", [Snak.mk (some ClaimValue.other)]),
     ("P171", [Snak.mk (some (ClaimValue.ref (chain_qid (i + 1))))])]
    [] []

/-- A world hosting the synthetic parent chain (the node index is recovered
from the QID length). -/
def chain_world : World :=
  World.mk (fun _ => Except.ok [])
    (fun q => Except.ok (chain_ent q.length))
    (fun _ _ => HttpResult.netFail)

/-- A Commons pages endpoint hosting exactly the Edelweiss plate. -/
def exact_pages : String → Except ReqError (List Page) := fun t =>
  if t = "File:Atlas der Alpenflora Edelweiss.jpg" then
    Except.ok [Page.mk false [ImageInfo.mk (some "u") none]]
  else Except.ok []

/-- A search endpoint that always fails, witnessing that the search phase
is not consulted. -/
def search_fail : String → Except ReqError (List (Option String)) :=
  fun _ => Except.error ReqError.network

/-! ## Helper lemmas -/

theorem strip_loop_drop_spans (l : List Char) :
    strip_tags_loop false l = drop_tag_spans l ∧
    strip_tags_loop true l = drop_tag_spans (skip_past_gt l) := by
  induction l with
  | nil => simp [strip_tags_loop, drop_tag_spans, skip_past_gt]
  | cons c rest ih =>
    by_cases h1 : c = '<'
    · subst h1
      constructor
      · simp [strip_tags_loop, drop_tag_spans, ih.2]
      · simp [strip_tags_loop, skip_past_gt, drop_tag_spans, ih.2]
    · by_cases h2 : c = '>'
      · subst h2
        constructor
        · simp [strip_tags_loop, drop_tag_spans, ih.1]
        · simp [strip_tags_loop, skip_past_gt, ih.1]
      · constructor
        · simp [strip_tags_loop, drop_tag_spans, h1, h2, ih.1]
        · simp [strip_tags_loop, skip_past_gt, h1, h2, ih.2]

theorem strip_tags_empty : strip_tags "" = "" := by decide

theorem filter_then_strip (l : List String)
    (h : ∀ x ∈ l, x ≠ "" → strip_tags x ≠ "") :
    (l.filter (fun v => v ≠ "")).map strip_tags
      = (l.map strip_tags).filter (fun v => v ≠ "") := by
  induction l with
  | nil => simp
  | cons x xs ih =>
    have hxs : ∀ y ∈ xs, y ≠ "" → strip_tags y ≠ "" := by
      intro y hy hne
      exact h y (List.mem_cons_of_mem x hy) hne
    by_cases hx : x = ""
    · subst hx
      simp only [List.filter_cons, List.map_cons, strip_tags_empty]
      simp
      simpa using ih hxs
    · have hs : strip_tags x ≠ "" := h x (List.mem_cons_self x xs) hx
      simp [hx, hs]
      simpa using ih hxs

theorem dropWhile_dropWhile (p : Char → Bool) (l : List Char) :
    List.dropWhile p (List.dropWhile p l) = List.dropWhile p l := by
  induction l with
  | nil => simp
  | cons a t ih =>
    by_cases h : p a
    · simp only [List.dropWhile_cons, h, if_true]
      exact ih
    · simp [List.dropWhile_cons, h]

theorem dropWhile_eq_self_append (p : Char → Bool) (B E : List Char)
    (h : List.dropWhile p (B ++ E) = B ++ E) : List.dropWhile p B = B := by
  cases B with
  | nil => simp
  | cons b B2 =>
    by_cases hb : p b
    · exfalso
      rw [List.cons_append, List.dropWhile_cons_of_pos hb] at h
      have hlen := congrArg List.length h
      have hle : (List.dropWhile p (B2 ++ E)).length ≤ (B2 ++ E).length :=
        (List.dropWhile_sublist p).length_le
      rw [List.length_cons] at hlen
      omega
    · simp [List.dropWhile_cons, hb]

theorem py_strip_chars_idem (l : List Char) :
    py_strip_chars (py_strip_chars l) = py_strip_chars l := by
  have hAdrop : List.dropWhile py_isspace (List.dropWhile py_isspace l)
      = List.dropWhile py_isspace l := dropWhile_dropWhile py_isspace l
  have hsplit : List.dropWhile py_isspace l
      = py_strip_chars l
        ++ (List.takeWhile py_isspace (List.dropWhile py_isspace l).reverse).reverse := by
    calc List.dropWhile py_isspace l
        = (List.dropWhile py_isspace l).reverse.reverse := by rw [List.reverse_reverse]
      _ = (List.takeWhile py_isspace (List.dropWhile py_isspace l).reverse
            ++ List.dropWhile py_isspace (List.dropWhile py_isspace l).reverse).reverse := by
            rw [List.takeWhile_append_dropWhile]
      _ = (List.dropWhile py_isspace (List.dropWhile py_isspace l).reverse).reverse
            ++ (List.takeWhile py_isspace (List.dropWhile py_isspace l).reverse).reverse := by
            rw [List.reverse_append]
      _ = py_strip_chars l
            ++ (List.takeWhile py_isspace (List.dropWhile py_isspace l).reverse).reverse := rfl
  have hBdrop : List.dropWhile py_isspace (py_strip_chars l) = py_strip_chars l := by
    apply dropWhile_eq_self_append py_isspace (py_strip_chars l)
      ((List.takeWhile py_isspace (List.dropWhile py_isspace l).reverse).reverse)
    rw [← hsplit]
    exact hAdrop
  have hrev1 : (py_strip_chars l).reverse
      = List.dropWhile py_isspace (List.dropWhile py_isspace l).reverse := by
    show ((List.dropWhile py_isspace
        (List.dropWhile py_isspace l).reverse).reverse).reverse = _
    rw [List.reverse_reverse]
  have hrevB : List.dropWhile py_isspace (py_strip_chars l).reverse
      = (py_strip_chars l).reverse := by
    rw [hrev1]
    exact dropWhile_dropWhile py_isspace (List.dropWhile py_isspace l).reverse
  show ((List.dropWhile py_isspace (py_strip_chars l)).reverse.dropWhile py_isspace).reverse
      = py_strip_chars l
  rw [hBdrop, hrevB, List.reverse_reverse]

theorem split_sentences_aux_ne_nil (l : List Char) :
    ∀ currRev pendRev, split_sentences_aux currRev pendRev l ≠ [] := by
  induction l with
  | nil => intro cur pend; simp [split_sentences_aux]
  | cons c rest ih =>
    intro cur pend
    simp only [split_sentences_aux]
    split
    · split
      · exact ih cur (c :: pend)
      · exact ih (c :: cur) pend
    · split
      · simp
      · exact ih (c :: (pend ++ cur)) []

theorem split_sentences_aux_singleton (l : List Char) :
    ∀ currRev pendRev s, split_sentences_aux currRev pendRev l = [s] →
      s = (pendRev ++ currRev).reverse ++ l := by
  induction l with
  | nil =>
    intro cur pend s h
    simp only [split_sentences_aux] at h
    simp at h
    simp [← h]
  | cons c rest ih =>
    intro cur pend s h
    simp only [split_sentences_aux] at h
    by_cases hsp : py_isspace c = true
    · rw [if_pos hsp] at h
      by_cases hcond : (!pend.isEmpty || head_is_punct cur) = true
      · rw [if_pos hcond] at h
        have hs := ih cur (c :: pend) s h
        rw [hs]
        simp
      · rw [if_neg hcond] at h
        have hpend : pend = [] := by
          cases pend with
          | nil => rfl
          | cons a b => exact absurd (by simp) hcond
        subst hpend
        have hs := ih (c :: cur) [] s h
        rw [hs]
        simp
    · rw [if_neg hsp] at h
      by_cases hcond : (!pend.isEmpty && is_boundary_upper c) = true
      · rw [if_pos hcond] at h
        exfalso
        injection h with h1 h2
        exact split_sentences_aux_ne_nil rest [c] [] h2
      · rw [if_neg hcond] at h
        have hs := ih (c :: (pend ++ cur)) [] s h
        rw [hs]
        simp

theorem head_sort_insert (b : Binding) (acc : List Binding) :
    (sort_insert b acc).head? = merge2 acc.head? (some b) := by
  cases acc with
  | nil => simp [sort_insert, merge2]
  | cons c cs =>
    simp only [sort_insert, merge2, List.head?_cons]
    split <;> simp

theorem merge2_assoc (x y z : Option Binding) :
    merge2 (merge2 x y) z = merge2 x (merge2 y z) := by
  cases x <;> cases y <;> cases z <;> simp only [merge2] <;>
    split_ifs <;> simp only [merge2] <;> split_ifs <;>
    first | rfl | omega

theorem merge2_none (x : Option Binding) : merge2 x none = x := by
  cases x <;> simp [merge2]

theorem first_min_cons (b : Binding) (bs : List Binding) :
    first_min_binding (b :: bs) = merge2 (some b) (first_min_binding bs) := by
  cases h : first_min_binding bs <;> simp [first_min_binding, h, merge2]

theorem foldl_sort_head (l : List Binding) :
    ∀ acc : List Binding,
      (l.foldl (fun a b => sort_insert b a) acc).head?
        = merge2 acc.head? (first_min_binding l) := by
  induction l with
  | nil =>
    intro acc
    simp only [List.foldl_nil, first_min_binding]
    rw [merge2_none]
  | cons b bs ih =>
    intro acc
    simp only [List.foldl_cons]
    rw [ih (sort_insert b acc), head_sort_insert, merge2_assoc, ← first_min_cons]

theorem py_stable_sort_head (l : List Binding) :
    (py_stable_sort l).head? = first_min_binding l := by
  show (l.foldl (fun a b => sort_insert b a) []).head? = _
  rw [foldl_sort_head l []]
  rfl

theorem walk_loop_chain (w : World) (target : String) (qids : Nat → String)
    (ents : Nat → Entity) :
    ∀ (n j : Nat),
      (∀ i, i < n → w.entity (qids (j + i)) = Except.ok (ents (j + i)) ∧
        get_rank_qid (ents (j + i)) ≠ some target ∧
        get_parent_taxon_qid (ents (j + i)) = some (qids (j + i + 1)) ∧
        qids (j + i + 1) ≠ "") →
      walk_up_loop w target n (qids j) = Except.ok none := by
  intro n
  induction n with
  | zero => intro j h; simp [walk_up_loop]
  | succ m ih =>
    intro j h
    obtain ⟨he, hr, hp, hne⟩ := h 0 (Nat.succ_pos m)
    rw [Nat.add_zero] at he hr hp hne
    simp only [walk_up_loop, he, if_neg hr, hp, if_neg hne]
    apply ih (j + 1)
    intro i hi
    have h2 := h (i + 1) (by omega)
    have heq : j + (i + 1) = j + 1 + i := by omega
    rw [heq] at h2
    exact h2

theorem walk_loop_chain_stops (w : World) (target : String) (qids : Nat → String)
    (ents : Nat → Entity) :
    ∀ (k n j : Nat), k < n →
      (∀ i, i < k → w.entity (qids (j + i)) = Except.ok (ents (j + i)) ∧
        get_rank_qid (ents (j + i)) ≠ some target ∧
        get_parent_taxon_qid (ents (j + i)) = some (qids (j + i + 1)) ∧
        qids (j + i + 1) ≠ "") →
      w.entity (qids (j + k)) = Except.ok (ents (j + k)) →
      get_rank_qid (ents (j + k)) ≠ some target →
      get_parent_taxon_qid (ents (j + k)) = none →
      walk_up_loop w target n (qids j) = Except.ok none := by
  intro k
  induction k with
  | zero =>
    intro n j hkn hchain he hr hp
    obtain ⟨m, rfl⟩ : ∃ m, n = m + 1 := ⟨n - 1, by omega⟩
    rw [Nat.add_zero] at he hr hp
    simp only [walk_up_loop, he, if_neg hr, hp]
  | succ k2 ih =>
    intro n j hkn hchain he hr hp
    obtain ⟨m, rfl⟩ : ∃ m, n = m + 1 := ⟨n - 1, by omega⟩
    obtain ⟨he0, hr0, hp0, hne0⟩ := hchain 0 (Nat.succ_pos k2)
    rw [Nat.add_zero] at he0 hr0 hp0 hne0
    simp only [walk_up_loop, he0, if_neg hr0, hp0, if_neg hne0]
    have heq : j + (k2 + 1) = j + 1 + k2 := by omega
    rw [heq] at he hr hp
    apply ih m (j + 1) (by omega) _ he hr hp
    intro i hi
    have h2 := hchain (i + 1) (by omega)
    have heq2 : j + (i + 1) = j + 1 + i := by omega
    rw [heq2] at h2
    exact h2

theorem resolve_image_of_first_ok (w : CommonsWorld) (latin : String)
    (info : ImageInfo)
    (h : first_resolving w (build_candidate_titles latin) = Except.ok (some info)) :
    resolve_image w latin = Except.ok (some info) := by
  unfold resolve_image
  rw [h]

theorem search_commons_ok (w : CommonsWorld) (latin : String)
    (hits : List (Option String))
    (h : w.searchRanked (search_query latin) = Except.ok hits) :
    search_commons w latin = Except.ok ((hits.take 10).filterMap hit_title) := by
  unfold search_commons
  rw [h]

theorem resolve_image_of_first_none (w : CommonsWorld) (latin : String)
    (hits : List (Option String))
    (h1 : first_resolving w (build_candidate_titles latin) = Except.ok none)
    (h2 : w.searchRanked (search_query latin) = Except.ok hits) :
    resolve_image w latin = first_resolving w ((hits.take 10).filterMap hit_title) := by
  unfold resolve_image
  rw [h1, search_commons_ok w latin hits h2]

theorem first_resolving_search_free
    (p : String → Except ReqError (List Page))
    (s s2 : String → Except ReqError (List (Option String))) :
    ∀ ts, first_resolving (CommonsWorld.mk p s) ts
        = first_resolving (CommonsWorld.mk p s2) ts := by
  intro ts
  induction ts with
  | nil => rfl
  | cons t ts2 ih =>
    have hq : query_image_info (CommonsWorld.mk p s) t
        = query_image_info (CommonsWorld.mk p s2) t := rfl
    simp only [first_resolving]
    rw [hq]
    cases query_image_info (CommonsWorld.mk p s2) t with
    | error e => rfl
    | ok o =>
      cases o with
      | none => exact ih
      | some i => rfl

theorem char_code_inj (a b : Char) (h : char_code a = char_code b) : a = b :=
  Char.eq_of_val_eq (UInt32.ext h)

theorem py_lt_chars_irrefl : ∀ l : List Char, py_lt_chars l l = false := by
  intro l
  induction l with
  | nil => rfl
  | cons a t ih => simp [py_lt_chars, ih]

theorem py_lt_chars_asymm :
    ∀ l m : List Char, py_lt_chars l m = true → py_lt_chars m l = false := by
  intro l
  induction l with
  | nil =>
    intro m h
    cases m with
    | nil => exact absurd h (by simp [py_lt_chars])
    | cons b bs => rfl
  | cons a t ih =>
    intro m h
    cases m with
    | nil => exact absurd h (by simp [py_lt_chars])
    | cons b bs =>
      simp only [py_lt_chars] at h ⊢
      by_cases h1 : char_code a < char_code b
      · rw [if_neg (by omega), if_pos (by omega)]
      · by_cases h2 : char_code b < char_code a
        · rw [if_neg h1, if_pos h2] at h
          exact absurd h (by simp)
        · rw [if_neg h1, if_neg h2] at h
          rw [if_neg h2, if_neg h1]
          exact ih bs h

theorem py_lt_chars_lt_of_lt_of_not_lt :
    ∀ l m k : List Char, py_lt_chars l k = true → py_lt_chars m k = false →
      py_lt_chars l m = true := by
  intro l
  induction l with
  | nil =>
    intro m k h1 h2
    cases k with
    | nil => exact absurd h1 (by simp [py_lt_chars])
    | cons c ck =>
      cases m with
      | nil => exact absurd h2 (by simp [py_lt_chars])
      | cons b bm => rfl
  | cons a t ih =>
    intro m k h1 h2
    cases k with
    | nil => exact absurd h1 (by simp [py_lt_chars])
    | cons c ck =>
      cases m with
      | nil => exact absurd h2 (by simp [py_lt_chars])
      | cons b bm =>
        simp only [py_lt_chars] at h1 h2 ⊢
        by_cases hbc : char_code b < char_code c
        · rw [if_pos hbc] at h2
          exact absurd h2 (by simp)
        · rw [if_neg hbc] at h2
          by_cases hcb : char_code c < char_code b
          · -- k head strictly below m head
            by_cases hac : char_code a < char_code c
            · rw [if_pos (by omega)]
            · rw [if_neg hac] at h1
              by_cases hca : char_code c < char_code a
              · rw [if_pos hca] at h1
                exact absurd h1 (by simp)
              · rw [if_pos (by omega)]
          · -- heads of m and k share the code
            rw [if_neg hcb] at h2
            by_cases hac : char_code a < char_code c
            · rw [if_pos (by omega)]
            · rw [if_neg hac] at h1
              by_cases hca : char_code c < char_code a
              · rw [if_pos hca] at h1
                exact absurd h1 (by simp)
              · rw [if_neg hca] at h1
                rw [if_neg (by omega), if_neg (by omega)]
                exact ih bm ck h1 h2

theorem py_lt_chars_antisymm :
    ∀ l m : List Char, py_lt_chars l m = false → py_lt_chars m l = false →
      l = m := by
  intro l
  induction l with
  | nil =>
    intro m h1 h2
    cases m with
    | nil => rfl
    | cons b bs => exact absurd h1 (by simp [py_lt_chars])
  | cons a t ih =>
    intro m h1 h2
    cases m with
    | nil => exact absurd h2 (by simp [py_lt_chars])
    | cons b bs =>
      simp only [py_lt_chars] at h1 h2
      by_cases hab : char_code a < char_code b
      · rw [if_pos hab] at h1
        exact absurd h1 (by simp)
      · by_cases hba : char_code b < char_code a
        · rw [if_pos hba] at h2
          exact absurd h2 (by simp)
        · rw [if_neg hab, if_neg hba] at h1
          rw [if_neg hba, if_neg hab] at h2
          have hc : a = b := char_code_inj a b (by omega)
          rw [hc, ih bs h1 h2]

theorem py_str_lt_irrefl (s : String) : py_str_lt s s = false :=
  py_lt_chars_irrefl s.toList

theorem py_str_lt_asymm (s t : String) (h : py_str_lt s t = true) :
    py_str_lt t s = false :=
  py_lt_chars_asymm s.toList t.toList h

theorem py_str_lt_of_lt_of_not_lt (s t r : String)
    (h1 : py_str_lt s r = true) (h2 : py_str_lt t r = false) :
    py_str_lt s t = true :=
  py_lt_chars_lt_of_lt_of_not_lt s.toList t.toList r.toList h1 h2

theorem py_str_lt_antisymm (s t : String)
    (h1 : py_str_lt s t = false) (h2 : py_str_lt t s = false) : s = t :=
  String.ext (py_lt_chars_antisymm s.toList t.toList h1 h2)

theorem sorted_head_none_iff (l : List String) :
    sorted_head l = none ↔ l = [] := by
  cases l with
  | nil => simp [sorted_head]
  | cons c cs =>
    simp only [sorted_head]
    cases sorted_head cs <;> simp

theorem sorted_head_mem : ∀ (l : List String) (m : String),
    sorted_head l = some m → m ∈ l := by
  intro l
  induction l with
  | nil => intro m h; exact absurd h (by simp [sorted_head])
  | cons c cs ih =>
    intro m h
    simp only [sorted_head] at h
    cases h2 : sorted_head cs with
    | none =>
      rw [h2] at h
      injection h with h
      simp [← h]
    | some m2 =>
      rw [h2] at h
      injection h with h
      rw [← h]
      unfold py_min
      split
      · exact List.mem_cons_of_mem c (ih m2 h2)
      · exact List.mem_cons_self c cs

theorem sorted_head_least : ∀ (l : List String) (m x : String),
    sorted_head l = some m → x ∈ l → py_str_lt x m = false := by
  intro l
  induction l with
  | nil => intro m x h; exact absurd h (by simp [sorted_head])
  | cons c cs ih =>
    intro m x h hx
    simp only [sorted_head] at h
    cases h2 : sorted_head cs with
    | none =>
      have hcs : cs = [] := (sorted_head_none_iff cs).mp h2
      rw [h2] at h
      injection h with h
      subst hcs
      have hxc : x = c := by simpa using hx
      rw [hxc, ← h]
      exact py_str_lt_irrefl c
    | some m2 =>
      rw [h2] at h
      injection h with h
      rcases List.mem_cons.mp hx with hxc | hxcs
      · subst hxc
        rw [← h]
        unfold py_min
        split
        · exact py_str_lt_asymm m2 x (by assumption)
        · exact py_str_lt_irrefl x
      · have hxm2 : py_str_lt x m2 = false := ih m2 x h2 hxcs
        rw [← h]
        unfold py_min
        split
        · exact hxm2
        · rename_i hm2c
          by_cases hxc : py_str_lt x c = true
          · exfalso
            have := py_str_lt_of_lt_of_not_lt x m2 c hxc
              (Bool.not_eq_true _ ▸ (by simpa using hm2c))
            rw [this] at hxm2
            exact absurd hxm2 (by simp)
          · simpa using hxc

theorem sorted_head_perm (l l2 : List String) (hp : l.Perm l2) :
    sorted_head l = sorted_head l2 := by
  cases h1 : sorted_head l with
  | none =>
    have hl : l = [] := (sorted_head_none_iff l).mp h1
    subst hl
    have : l2 = [] := hp.symm.eq_nil
    subst this
    rfl
  | some m =>
    cases h2 : sorted_head l2 with
    | none =>
      have hl2 : l2 = [] := (sorted_head_none_iff l2).mp h2
      subst hl2
      have : l = [] := hp.eq_nil
      subst this
      exact absurd h1 (by simp [sorted_head])
    | some m2 =>
      have hm : m ∈ l2 := hp.subset (sorted_head_mem l m h1)
      have hm2 : m2 ∈ l := hp.symm.subset (sorted_head_mem l2 m2 h2)
      have hle1 : py_str_lt m m2 = false := sorted_head_least l2 m2 m h2 hm
      have hle2 : py_str_lt m2 m = false := sorted_head_least l m m2 h1 hm2
      rw [py_str_lt_antisymm m m2 hle1 hle2]

/-! ## Claim theorems -/

/-- C1: when the knowledge-graph query returns zero candidate rows for a
Latin name, build_payload yields the no-taxon NotFound outcome (the die
SystemExit with its diagnostic message), never a propagated remote error;
the batch loop counts the failure, keeps the diagnostic line naming the
failed Latin name, and continues with the remaining names unchanged. -/
theorem C1_build_payload_empty_results (w : World) (latin : String)
    (rest : List String) (h : w.sparql latin = Except.ok []) :
    build_payload w latin = Except.error (BuildErr.sysExit (no_taxon_msg latin)) ∧
    run_batch_loop w (latin :: rest) =
      ((run_batch_loop w rest).1, (run_batch_loop w rest).2.1 + 1,
        ("Error: " ++ no_taxon_msg latin) :: (run_batch_loop w rest).2.2) := by
  have hb : build_payload w latin
      = Except.error (BuildErr.sysExit (no_taxon_msg latin)) := by
    simp only [build_payload, sparql_find_item_by_taxon_name, h, sparql_find_item]
  refine ⟨hb, ?_⟩
  simp only [run_batch_loop, hb]

/-- C1 witness: a world with an empty SPARQL answer, exercised at one
concrete Latin name in a singleton batch. -/
theorem C1_witness :
    build_payload w_empty "Gentiana verna"
      = Except.error (BuildErr.sysExit (no_taxon_msg "Gentiana verna")) ∧
    run_batch_loop w_empty ["Gentiana verna"]
      = ([], 1, ["Error: " ++ no_taxon_msg "Gentiana verna"]) := by
  have h := C1_build_payload_empty_results w_empty "Gentiana verna" [] rfl
  exact ⟨h.1, h.2.trans (by decide)⟩

/-- C2 counterexample: with an artist field consisting only of markup, an
empty credit and a CC BY 4.0 license, fetch_attribution keeps the
markup-only artist (its raw value is non-empty) and yields a leading empty
part before the separator, while the claimed stripped-text filtering would
drop that field. -/
theorem C2_counterexample :
    fetch_attribution (ImageInfo.mk none
        (some (Extmetadata.mk (some "<a></a>") (some "") (some "CC BY 4.0"))))
      = " | CC BY 4.0" ∧
    fetch_attribution_spec (ImageInfo.mk none
        (some (Extmetadata.mk (some "<a></a>") (some "") (some "CC BY 4.0"))))
      = "CC BY 4.0" ∧
    fetch_attribution (ImageInfo.mk none
        (some (Extmetadata.mk (some "<a></a>") (some "") (some "CC BY 4.0"))))
      ≠ fetch_attribution_spec (ImageInfo.mk none
        (some (Extmetadata.mk (some "<a></a>") (some "") (some "CC BY 4.0")))) := by
  decide

/-- C2 (amended): fetch_attribution strips markup from the artist, credit
and license fields and concatenates, in that fixed order joined by the
pipe separator, exactly those fields whose RAW text is non-empty; this
agrees with the claimed stripped-text criterion whenever no kept field
strips to nothing, and the claim's example composes to J. Doe | CC BY 4.0
as stated. -/
theorem C2_fetch_attribution_amended :
    (∀ meta : ImageInfo,
      (∀ v ∈ attribution_fields meta, v ≠ "" → strip_tags v ≠ "") →
      fetch_attribution meta = fetch_attribution_spec meta) ∧
    fetch_attribution (ImageInfo.mk none
        (some (Extmetadata.mk (some "<a>J. Doe</a>") (some "") (some "CC BY 4.0"))))
      = "J. Doe | CC BY 4.0" := by
  constructor
  · intro meta h
    unfold fetch_attribution fetch_attribution_spec
    rw [filter_then_strip (attribution_fields meta) h]
  · decide

/-- C2 witness: the agreement between the source behaviour and the claimed
behaviour at a concrete metadata record whose fields survive stripping. -/
theorem C2_witness :
    fetch_attribution (ImageInfo.mk none
        (some (Extmetadata.mk (some "<i>A</i>") none (some "L"))))
      = fetch_attribution_spec (ImageInfo.mk none
        (some (Extmetadata.mk (some "<i>A</i>") none (some "L")))) :=
  C2_fetch_attribution_amended.1
    (ImageInfo.mk none (some (Extmetadata.mk (some "<i>A</i>") none (some "L"))))
    (by decide)

/-- C3 counterexample: a 500 response is a transient failure (the try
block raises through raise_for_status), yet fetch_wikipedia_summary
converts it into the same normal empty-summary result as the defined 404
missing-page case, instead of propagating it to the caller. -/
theorem C3_counterexample :
    fetch_summary_body (HttpResult.resp 500 JsonBody.malformed)
      = Except.error (ReqError.httpStatus 500) ∧
    fetch_wikipedia_summary (HttpResult.resp 500 JsonBody.malformed) = "" ∧
    fetch_wikipedia_summary (HttpResult.resp 404 (JsonBody.extract none)) = "" ∧
    (500 : Nat) ≠ 404 := by
  decide

/-- C3 (amended): fetch_wikipedia_summary returns the empty summary for
the 404 missing-page case AND for every other failure: network errors,
other 4xx and 5xx statuses and malformed bodies are caught by the
RequestException handler and converted into an empty summary, never
propagated; a successful response yields its extract (empty when absent);
any two failing requests are indistinguishable in the result. -/
theorem C3_fetch_summary_amended (r : HttpResult) :
    fetch_wikipedia_summary r =
      (match r with
       | HttpResult.netFail => ""
       | HttpResult.resp status body =>
         if status = 404 then ""
         else if 400 ≤ status ∧ status < 600 then ""
         else
           match body with
           | JsonBody.malformed => ""
           | JsonBody.extract v => v.getD "") ∧
    (∀ r2 : HttpResult, (∃ e, fetch_summary_body r = Except.error e) →
      (∃ e2, fetch_summary_body r2 = Except.error e2) →
      fetch_wikipedia_summary r = fetch_wikipedia_summary r2) := by
  constructor
  · cases r with
    | netFail => rfl
    | resp status body =>
      by_cases h1 : status = 404
      · simp [fetch_wikipedia_summary, fetch_summary_body, h1]
      · by_cases h2 : 400 ≤ status ∧ status < 600
        · simp [fetch_wikipedia_summary, fetch_summary_body, h1, h2]
        · cases body <;> simp [fetch_wikipedia_summary, fetch_summary_body, h1, h2]
  · intro r2 h1 h2
    obtain ⟨e, he⟩ := h1
    obtain ⟨e2, he2⟩ := h2
    simp [fetch_wikipedia_summary, he, he2]

/-- C3 witness: a network failure and a 500 response are both converted to
the same normal result. -/
theorem C3_witness :
    fetch_wikipedia_summary HttpResult.netFail
      = fetch_wikipedia_summary (HttpResult.resp 500 JsonBody.malformed) :=
  (C3_fetch_summary_amended HttpResult.netFail).2
    (HttpResult.resp 500 JsonBody.malformed)
    ⟨ReqError.network, rfl⟩ ⟨ReqError.httpStatus 500, by decide⟩

/-- C4 counterexample: a text with surrounding whitespace and no sentence
boundary is returned stripped, not unmodified. -/
theorem C4_counterexample :
    finds_no_boundary " Hi " ∧
    first_sentences " Hi " 2 = "Hi" ∧
    first_sentences " Hi " 2 ≠ " Hi " := by
  decide

/-- C4 (amended): for every text in which the boundary heuristic finds no
boundary and every sentence count of at least one, first_sentences returns
the whitespace-stripped text — equal to the input itself exactly on inputs
without leading or trailing whitespace (the empty input included). -/
theorem C4_first_sentences_no_boundary (text : String) (n : Nat)
    (hn : 1 ≤ n) (h : finds_no_boundary text) :
    first_sentences text n = py_strip text := by
  by_cases he : text = ""
  · subst he
    simp [first_sentences, py_strip, py_strip_chars]
  · unfold first_sentences
    rw [if_neg he]
    obtain ⟨s, hs⟩ : ∃ s, split_sentences (py_strip_chars text.toList) = [s] := by
      have hne := split_sentences_aux_ne_nil (py_strip_chars text.toList) [] []
      unfold finds_no_boundary at h
      cases hsp : split_sentences (py_strip_chars text.toList) with
      | nil => exact absurd hsp hne
      | cons a t =>
        cases t with
        | nil => exact ⟨a, rfl⟩
        | cons b t2 => rw [hsp] at h; simp at h
    have hs2 : s = py_strip_chars text.toList := by
      have hsing := split_sentences_aux_singleton (py_strip_chars text.toList) [] [] s hs
      simpa using hsing
    rw [hs]
    obtain ⟨m, rfl⟩ : ∃ m, n = m + 1 := ⟨n - 1, by omega⟩
    rw [List.take_succ_cons, List.take_nil]
    rw [show List.intercalate [' '] [s] = s from by simp [List.intercalate]]
    rw [hs2]
    show py_strip (String.mk (py_strip_chars text.toList)) = py_strip text
    unfold py_strip
    congr 1
    exact py_strip_chars_idem text.toList

/-- C4 witness: the amended statement at the concrete boundary-free
input. -/
theorem C4_witness : first_sentences " Hi " 2 = "Hi" := by
  have h := C4_first_sentences_no_boundary " Hi " 2 (by omega) (by decide)
  rw [h]
  decide

/-- C5: the assembler's selection over SPARQL candidate rows follows the
rank priority species (0) before subspecies (1) before any other rank (5)
before a missing rank (10), with ties broken by original result order: in
general the selected QID comes from the earliest row of minimal priority
(first_min_binding), and the claim's three-row example selects e2. -/
theorem C5_sparql_rank_selection :
    (∀ (results : List Binding) (b : Binding),
      first_min_binding results = some b →
      sparql_find_item results = some (after_last_slash b.item)) ∧
    sparql_find_item
      [Binding.mk "http://www.wikidata.org/entity/e1" none,
       Binding.mk "http://www.wikidata.org/entity/e2"
         (some "http://www.wikidata.org/entity/Q7432"),
       Binding.mk "http://www.wikidata.org/entity/e3"
         (some "http://www.wikidata.org/entity/Q68947")] = some "e2" ∧
    rank_priority (some "http://www.wikidata.org/entity/Q7432") = 0 ∧
    rank_priority (some "http://www.wikidata.org/entity/Q68947") = 1 ∧
    rank_priority (some "http://www.wikidata.org/entity/Q16521") = 5 ∧
    rank_priority none = 10 := by
  refine ⟨?_, by decide, by decide, by decide, by decide, by decide⟩
  intro results b h
  cases results with
  | nil => exact absurd h (by simp [first_min_binding])
  | cons r rs =>
    have h2 : (py_stable_sort (r :: rs)).head? = some b := by
      rw [py_stable_sort_head]; exact h
    simp [sparql_find_item, h2]

/-- C5 witness: two rows that tie at species rank; the earlier row wins. -/
theorem C5_witness :
    sparql_find_item
      [Binding.mk "http://www.wikidata.org/entity/f1"
         (some "http://www.wikidata.org/entity/Q7432"),
       Binding.mk "http://www.wikidata.org/entity/f2"
         (some "http://www.wikidata.org/entity/Q7432")] = some "f1" := by
  have h := C5_sparql_rank_selection.1
    [Binding.mk "http://www.wikidata.org/entity/f1"
       (some "http://www.wikidata.org/entity/Q7432"),
     Binding.mk "http://www.wikidata.org/entity/f2"
       (some "http://www.wikidata.org/entity/Q7432")]
    (Binding.mk "http://www.wikidata.org/entity/f1"
       (some "http://www.wikidata.org/entity/Q7432"))
    (by decide)
  rw [h]
  decide

/-- C6: when none of the first ten parent-chain nodes reachable from the
start has the target rank and each of them carries a parent reference,
walk_up_to_rank returns the NotFound outcome (ok none) after examining
exactly those ten nodes — the result is unchanged under any world that
agrees on those ten entities, so an eleventh node is never fetched — and,
in any world, the walk returns ok none as soon as an examined node without
the target rank lacks a parent reference. -/
theorem C6_walk_up_bound (w : World) (target : String) (qids : Nat → String)
    (ents : Nat → Entity)
    (hchain : ∀ i, i < 10 → w.entity (qids i) = Except.ok (ents i) ∧
      get_rank_qid (ents i) ≠ some target ∧
      get_parent_taxon_qid (ents i) = some (qids (i + 1)) ∧ qids (i + 1) ≠ "") :
    walk_up_to_rank w (qids 0) target = Except.ok none ∧
    (∀ w2 : World, (∀ i, i < 10 → w2.entity (qids i) = w.entity (qids i)) →
      walk_up_to_rank w2 (qids 0) target = Except.ok none) ∧
    (∀ (w3 : World) (qs : Nat → String) (es : Nat → Entity) (k : Nat), k < 10 →
      (∀ i, i < k → w3.entity (qs i) = Except.ok (es i) ∧
        get_rank_qid (es i) ≠ some target ∧
        get_parent_taxon_qid (es i) = some (qs (i + 1)) ∧ qs (i + 1) ≠ "") →
      w3.entity (qs k) = Except.ok (es k) →
      get_rank_qid (es k) ≠ some target →
      get_parent_taxon_qid (es k) = none →
      walk_up_to_rank w3 (qs 0) target = Except.ok none) := by
  refine ⟨?_, ?_, ?_⟩
  · unfold walk_up_to_rank
    apply walk_loop_chain w target qids ents 10 0
    intro i hi
    simp only [Nat.zero_add]
    exact hchain i hi
  · intro w2 hagree
    unfold walk_up_to_rank
    apply walk_loop_chain w2 target qids ents 10 0
    intro i hi
    simp only [Nat.zero_add]
    obtain ⟨he, hr, hp, hne⟩ := hchain i hi
    exact ⟨(hagree i hi).trans he, hr, hp, hne⟩
  · intro w3 qs es k hk hchain3 he hr hp
    unfold walk_up_to_rank
    apply walk_loop_chain_stops w3 target qs es k 10 0 hk
    · intro i hi
      simp only [Nat.zero_add]
      exact hchain3 i hi
    · simp only [Nat.zero_add]
      exact he
    · simp only [Nat.zero_add]
      exact hr
    · simp only [Nat.zero_add]
      exact hp

/-- C6 witness: the synthetic eleven-node chain world; the walk starting at
node zero returns ok none. -/
theorem C6_witness :
    walk_up_to_rank chain_world (chain_qid 0) "Q7432" = Except.ok none := by
  have h := C6_walk_up_bound chain_world "Q7432" chain_qid chain_ent (by decide)
  exact h.1

/-- C7: resolve_image enumerates the File-prefixed exact-template candidate
titles (raw and underscore-normalized variants) before any search; when
some exact candidate resolves to image info, the outcome is that info
whatever the search endpoint would answer, so the search phase is never
invoked; when no exact candidate resolves, the fallback checks exactly the
truthy titles among the first ten ranked search hits, in rank order with
the first resolvable hit winning, and that checked list never exceeds ten
titles. -/
theorem C7_resolve_image_order :
    build_candidate_titles "Gentiana verna" =
      ["File:Atlas der Alpenflora Gentiana verna.jpg",
       "File:Atlas der Alpenflora Gentiana_verna.jpg"] ∧
    (∀ (p : String → Except ReqError (List Page))
       (s s2 : String → Except ReqError (List (Option String)))
       (latin : String) (info : ImageInfo),
      first_resolving (CommonsWorld.mk p s) (build_candidate_titles latin)
        = Except.ok (some info) →
      resolve_image (CommonsWorld.mk p s2) latin = Except.ok (some info)) ∧
    (∀ (w : CommonsWorld) (latin : String) (hits : List (Option String)),
      first_resolving w (build_candidate_titles latin) = Except.ok none →
      w.searchRanked (search_query latin) = Except.ok hits →
      resolve_image w latin
        = first_resolving w ((hits.take 10).filterMap hit_title) ∧
      ((hits.take 10).filterMap hit_title).length ≤ 10) := by
  refine ⟨by decide, ?_, ?_⟩
  · intro p s s2 latin info h
    have h2 : first_resolving (CommonsWorld.mk p s2) (build_candidate_titles latin)
        = Except.ok (some info) := by
      rw [← first_resolving_search_free p s s2]
      exact h
    exact resolve_image_of_first_ok (CommonsWorld.mk p s2) latin info h2
  · intro w latin hits h1 h2
    constructor
    · exact resolve_image_of_first_none w latin hits h1 h2
    · have hfm : ((hits.take 10).filterMap hit_title).length ≤ (hits.take 10).length :=
        List.length_filterMap_le hit_title (hits.take 10)
      have htk : (hits.take 10).length ≤ 10 := by
        rw [List.length_take]
        exact min_le_left 10 hits.length
      omega

/-- C7 witness: a world hosting exactly the Edelweiss plate under its
exact-template title, with a failing search endpoint: the exact phase
resolves and the search endpoint is never consulted. -/
theorem C7_witness :
    resolve_image (CommonsWorld.mk exact_pages search_fail) "Edelweiss"
      = Except.ok (some (ImageInfo.mk (some "u") none)) := by
  apply C7_resolve_image_order.2.1 exact_pages search_fail search_fail "Edelweiss"
    (ImageInfo.mk (some "u") none)
  decide

/-- C8: first_sentences splits at each boundary (a period, exclamation or
question mark, followed by whitespace, followed by an uppercase letter of
the accepted set) and rejoins the first n sentences with single spaces:
the claim's example gives A. B.; exclamation and question marks and the
accented uppercase letters act as boundaries and a multi-space separator
is rejoined with a single space; a period followed by a lowercase letter
is not a boundary; and the split of the example text is exactly its three
sentences. -/
theorem C8_first_sentences_examples :
    first_sentences "A. B. C." 2 = "A. B." ∧
    first_sentences "Eins!  Öha? Drei." 2 = "Eins! Öha?" ∧
    first_sentences "z. b. klein. Und mehr. Noch eins." 2
      = "z. b. klein. Und mehr." ∧
    (split_sentences (py_strip_chars "A. B. C.".toList)).map String.mk
      = ["A.", "B.", "C."] := by
  decide

/-- C9: whenever the unified candidate collection (metadata pattern
candidates together with the title-derived candidate) is non-empty, the
chosen Latin name is its lexicographically smallest element under Python's
string order (stated as: the choice m satisfies py_str_lt x m = false for
every unified candidate x); the choice is invariant under permuting the
collected candidates, hence independent of collection order; and the
title-derived candidate participates in the tie-break, winning over a
lexicographically larger metadata candidate rather than serving only as a
fallback. -/
theorem C9_plate_choice_lex_min :
    (∀ (cands : List String) (t? : Option String),
      unify_candidates cands t? ≠ [] →
      ∃ m, plate_latin_choice cands t? = some m ∧
        m ∈ unify_candidates cands t? ∧
        ∀ x ∈ unify_candidates cands t?, py_str_lt x m = false) ∧
    (∀ (cands cands2 : List String) (t? : Option String),
      cands.Perm cands2 →
      plate_latin_choice cands t? = plate_latin_choice cands2 t?) ∧
    gather_entry_latin ["Zzz zzz"] "Hartinger - Atlas - Aaa_bbb.jpg"
      = some "Aaa bbb" := by
  refine ⟨?_, ?_, by decide⟩
  · intro cands t? hne
    cases hm : sorted_head (unify_candidates cands t?) with
    | none => exact absurd ((sorted_head_none_iff _).mp hm) hne
    | some m =>
      exact ⟨m, hm, sorted_head_mem _ m hm,
        fun x hx => sorted_head_least _ m x hm hx⟩
  · intro cands cands2 t? hp
    unfold plate_latin_choice
    apply sorted_head_perm
    cases t? with
    | none => simpa [unify_candidates] using hp
    | some t =>
      simp only [unify_candidates]
      by_cases ht : t = ""
      · rw [if_pos ht, if_pos ht]
        exact hp
      · rw [if_neg ht, if_neg ht]
        by_cases hmem : t ∈ cands
        · have hmem2 : t ∈ cands2 := hp.subset hmem
          rw [if_pos hmem, if_pos hmem2]
          exact hp
        · have hmem2 : t ∉ cands2 := fun hc => hmem (hp.symm.subset hc)
          rw [if_neg hmem, if_neg hmem2]
          exact hp.append_right [t]

/-- C9 witness: the least-element characterization at a concrete two-entry
candidate list with no title candidate. -/
theorem C9_witness :
    ∃ m, plate_latin_choice ["Gentiana verna", "Gentiana acaulis"] none = some m ∧
      m ∈ unify_candidates ["Gentiana verna", "Gentiana acaulis"] none ∧
      ∀ x ∈ unify_candidates ["Gentiana verna", "Gentiana acaulis"] none,
        py_str_lt x m = false :=
  C9_plate_choice_lex_min.1 ["Gentiana verna", "Gentiana acaulis"] none (by decide)

/-- C10: the tag stripper drops each angle bracket and every character
between a less-than sign and the next greater-than sign; after a less-than
sign with no later greater-than sign, everything to the end of the string
is dropped; a stray greater-than sign is itself dropped while the text
after it is kept; and the scan result is trimmed of surrounding
whitespace — shown by equivalence with the declarative drop_tag_spans and
by concrete balanced and unbalanced examples. -/
theorem C10_strip_tags_spec :
    (∀ text : String,
      strip_tags text = String.mk (py_strip_chars (drop_tag_spans text.toList))) ∧
    strip_tags "a<b" = "a" ∧
    strip_tags "a>b<c>d" = "abd" ∧
    strip_tags " <i>x</i> y " = "x y" := by
  refine ⟨?_, by decide, by decide, by decide⟩
  intro text
  show py_strip (String.mk (strip_tags_loop false text.toList)) = _
  rw [(strip_loop_drop_spans text.toList).1]
  rfl

end AlpenBlumen
